import Mathlib

/-!
Verification of the sagentic observability and extension platform.

This file gives a shallow embedding, in Lean, of the parts of the code base
that the specification's claims are about:

* the extension sandbox URL matcher and HTTP egress client
  (src/extensions/http_client.py),
* the trace ingestion engine (src/services/run_service.py,
  src/repositories/run_repository.py) and the MCP ingest tool
  (src/mcp/server.py),
* the extension lifecycle manager's route unmounting
  (src/extensions/manager.py), and
* the extension key/value storage (src/extensions/storage.py),

together with theorems settling the specification's claims about them.

Python strings in the sandbox component are modelled as lists of code points
(PyStr); machine integers are modelled as Int/Nat (the Python sources use
arbitrary-precision ints); Python floats are modelled as rationals; `None`
becomes Option.  Database tables are modelled as lists of row structures and
a committed database snapshot as a record of such tables.
-/

/-- A Python string, as a sequence of code points. -/
abbrev PyStr := List Char

/-- Python `s.startswith(t)`. -/
def pyStartsWith (s t : PyStr) : Bool := t.isPrefixOf s

/-- Python `s.endswith(t)`. -/
def pyEndsWith (s t : PyStr) : Bool := t.isSuffixOf s

/-- Python `s.rstrip(c)` for a single strip character: remove the maximal
trailing run of `c`. -/
def pyRstrip (s : PyStr) (c : Char) : PyStr :=
  (s.reverse.dropWhile (fun x => x == c)).reverse

/-- Python `s.lower()`, restricted to the ASCII fragment the code compares
header names and HTTP methods in. -/
def pyLower (s : PyStr) : PyStr := s.map Char.toLower

/-- Python `s.upper()`, restricted likewise. -/
def pyUpper (s : PyStr) : PyStr := s.map Char.toUpper

/-- Python `s.split('/')[0]`: the part of a string before the first slash. -/
def pySplitSlashHead (s : PyStr) : PyStr := s.takeWhile (fun x => x ≠ '/')

/-- The result of urllib.parse.urlparse, restricted to the three components
the sandbox matcher reads.  Parsing itself is performed by the Python
standard library and is outside the repository; concrete parsed values are
supplied directly in theorems. -/
structure ParsedUrl where
  scheme : PyStr
  netloc : PyStr
  path : PyStr
deriving DecidableEq

/-- The path-matching part of ExtensionHttpClient._url_matches_pattern
(src/extensions/http_client.py, lines 127-137). -/
def url_matches_pattern_path (url pattern : ParsedUrl) : Bool :=
  let pattern_path := pattern.path
  -- url_path = url_parsed.path or '/'
  let url_path := if url.path = [] then '/' :: [] else url.path
  if pattern_path = [] ∨ pattern_path = '/' :: [] ∨ pyEndsWith pattern_path ('*' :: []) then
    -- path_pattern = pattern_path.rstrip('*') if pattern_path else ''
    let path_pattern := if pattern_path ≠ [] then pyRstrip pattern_path '*' else []
    if path_pattern ≠ [] ∧ ¬ pyStartsWith url_path (pyRstrip path_pattern '/') then
      if pyRstrip path_pattern '/' ≠ pyRstrip url_path '/' then false else true
    else true
  else
    pyRstrip url_path '/' == pyRstrip pattern_path '/'

/-- ExtensionHttpClient._url_matches_pattern (src/extensions/http_client.py,
lines 102-137), transcribed clause by clause on parsed URLs. -/
def url_matches_pattern (url pattern : ParsedUrl) : Bool :=
  -- if pattern_parsed.scheme and pattern_parsed.scheme != url_parsed.scheme: return False
  if pattern.scheme ≠ [] ∧ pattern.scheme ≠ url.scheme then false
  else
    -- pattern_host = pattern_parsed.netloc or pattern_parsed.path.split('/')[0]
    let pattern_host := if pattern.netloc ≠ [] then pattern.netloc else pySplitSlashHead pattern.path
    let url_host := url.netloc
    if pyStartsWith pattern_host ('*' :: '.' :: []) then
      let domain_pattern := pattern_host.drop 2
      if ¬ pyEndsWith url_host ('.' :: domain_pattern) then false else
        url_matches_pattern_path url pattern
    else if pattern_host ≠ url_host then false else
      url_matches_pattern_path url pattern

/-- Remove a single trailing slash, as in the claim's reading "ignoring a
single trailing slash". -/
def dropOneTrailingSlash (s : PyStr) : PyStr :=
  if s.getLast? = some '/' then s.dropLast else s

/-- The matching relation exactly as claim C1 words it: scheme, when present
in the pattern, must agree; a pattern host beginning with the two characters
star-dot matches exactly the strict subdomains; otherwise hosts are equal; a
pattern path that is empty or a lone slash matches every path; a pattern path
ending in a star matches by prefix of the part before the star; any other
pattern path matches only that exact path ignoring a single trailing slash. -/
def spec_url_matches (url pattern : ParsedUrl) : Bool :=
  (if pattern.scheme ≠ [] then pattern.scheme == url.scheme else true) &&
  (let pattern_host := if pattern.netloc ≠ [] then pattern.netloc else pySplitSlashHead pattern.path
   if pyStartsWith pattern_host ('*' :: '.' :: []) then
     pyEndsWith url.netloc ('.' :: pattern_host.drop 2)
   else pattern_host == url.netloc) &&
  (let pattern_path := pattern.path
   let url_path := if url.path = [] then '/' :: [] else url.path
   if pattern_path = [] ∨ pattern_path = '/' :: [] then true
   else if pyEndsWith pattern_path ('*' :: []) then
     pyStartsWith url_path (pyRstrip pattern_path '*')
   else dropOneTrailingSlash url_path == dropOneTrailingSlash pattern_path)

/-- The path clause of the amended claim: a wildcard-ish pattern path
(empty, a lone slash, or ending in a star) matches any url path that starts
with the part before the star with its trailing slashes also removed, and an
exact pattern path matches ignoring any number of trailing slashes on both
sides. -/
def amended_path_check (url pattern : ParsedUrl) : Bool :=
  let pattern_path := pattern.path
  let url_path := if url.path = [] then '/' :: [] else url.path
  if pattern_path = [] ∨ pattern_path = '/' :: [] ∨ pyEndsWith pattern_path ('*' :: []) then
    pyStartsWith url_path (pyRstrip (pyRstrip pattern_path '*') '/')
  else pyRstrip url_path '/' == pyRstrip pattern_path '/'

/-- The matching relation the code actually implements, i.e. the claim
amended at its two path clauses (see amended_path_check). -/
def amended_url_matches (url pattern : ParsedUrl) : Bool :=
  (if pattern.scheme ≠ [] then pattern.scheme == url.scheme else true) &&
  (let pattern_host := if pattern.netloc ≠ [] then pattern.netloc else pySplitSlashHead pattern.path
   if pyStartsWith pattern_host ('*' :: '.' :: []) then
     pyEndsWith url.netloc ('.' :: pattern_host.drop 2)
   else pattern_host == url.netloc) &&
  amended_path_check url pattern

example : url_matches_pattern ⟨"https".data, "api.example.com".data, "/x".data⟩
    ⟨"https".data, "*.example.com".data, "/*".data⟩ = true := by decide

example : url_matches_pattern ⟨"https".data, "example.com".data, "/x".data⟩
    ⟨"https".data, "*.example.com".data, "/*".data⟩ = false := by decide

example : url_matches_pattern ⟨"https".data, "api.example.com".data, "/any/path".data⟩
    ⟨"https".data, "api.example.com".data, "/".data⟩ = true := by decide

example : url_matches_pattern ⟨"https".data, "api.example.com".data, "/v1".data⟩
    ⟨"https".data, "api.example.com".data, "/v1".data⟩ = true := by decide

example : url_matches_pattern ⟨"https".data, "api.example.com".data, "/v2".data⟩
    ⟨"https".data, "api.example.com".data, "/v1".data⟩ = false := by decide

/-- The rstrip of a list is a prefix of it. -/
theorem pyRstrip_prefix_self (s : PyStr) (c : Char) : pyRstrip s c <+: s := by
  refine ⟨(s.reverse.takeWhile (fun x => x == c)).reverse, ?_⟩
  unfold pyRstrip
  rw [← List.reverse_append, List.takeWhile_append_dropWhile, List.reverse_reverse]

theorem pyRstrip_nil (c : Char) : pyRstrip [] c = [] := rfl

/-- The inner fallback branch of the path matcher (equality of the two
slash-stripped paths after a failed prefix test) is unreachable with a true
outcome, so the path matcher is exactly the amended prefix test. -/
theorem url_matches_pattern_path_eq (url pattern : ParsedUrl) :
    url_matches_pattern_path url pattern = amended_path_check url pattern := by
  unfold url_matches_pattern_path amended_path_check
  simp only
  set u := (if url.path = [] then '/' :: [] else url.path) with hu
  set pp := pyRstrip pattern.path '*' with hppdef
  have hnotnil : (if pattern.path ≠ [] then pp else []) = pp := by
    split
    · rfl
    · next h =>
      simp only [ne_eq, not_not] at h
      rw [hppdef, h]
      rfl
  split
  · rw [hnotnil]
    by_cases hsw : pyStartsWith u (pyRstrip pp '/') = true
    · rw [if_neg (fun hc => hc.2 hsw)]
      exact hsw.symm
    · have hsw' : pyStartsWith u (pyRstrip pp '/') = false := by
        simpa using hsw
      by_cases hppnil : pp = []
      · exfalso
        apply hsw
        rw [hppnil]
        show pyStartsWith u [] = true
        unfold pyStartsWith
        exact List.isPrefixOf_iff_prefix.mpr (List.nil_prefix)
      · rw [if_pos ⟨hppnil, hsw⟩, hsw']
        split
        · rfl
        · next heq =>
          exfalso
          apply hsw
          simp only [ne_eq, not_not] at heq
          have hpfx : pyRstrip pp '/' <+: u := by
            rw [heq]
            exact pyRstrip_prefix_self _ '/'
          unfold pyStartsWith
          exact List.isPrefixOf_iff_prefix.mpr hpfx
  · rfl

/-- The code's matcher agrees with the amended relation on every parsed
pattern and request URL. -/
theorem url_matches_pattern_eq_amended (url pattern : ParsedUrl) :
    url_matches_pattern url pattern = amended_url_matches url pattern := by
  unfold url_matches_pattern amended_url_matches
  rw [url_matches_pattern_path_eq]
  simp only
  set ph := (if pattern.netloc ≠ [] then pattern.netloc else pySplitSlashHead pattern.path) with hph
  by_cases hs : pattern.scheme ≠ [] ∧ pattern.scheme ≠ url.scheme
  · rw [if_pos hs]
    have h1 : (if pattern.scheme ≠ [] then pattern.scheme == url.scheme else true) = false := by
      rw [if_pos hs.1]
      exact beq_eq_false_iff_ne.mpr hs.2
    rw [h1, Bool.false_and]
    rfl
  · rw [if_neg hs]
    have h1 : (if pattern.scheme ≠ [] then pattern.scheme == url.scheme else true) = true := by
      split
      · next hne =>
        have h2 : ¬ pattern.scheme ≠ url.scheme := fun h => hs ⟨hne, h⟩
        simp only [ne_eq, not_not] at h2
        exact beq_iff_eq.mpr h2
      · rfl
    rw [h1, Bool.true_and]
    by_cases hstar : pyStartsWith ph ('*' :: '.' :: []) = true
    · rw [if_pos hstar, if_pos hstar]
      by_cases hend : pyEndsWith url.netloc ('.' :: ph.drop 2) = true
      · rw [if_neg (fun h => h hend), hend, Bool.true_and]
      · have hend' : pyEndsWith url.netloc ('.' :: ph.drop 2) = false := by
          simpa using hend
        rw [if_pos hend, hend', Bool.false_and]
    · rw [if_neg hstar, if_neg hstar]
      by_cases hh : ph = url.netloc
      · rw [if_neg (not_not_intro hh), beq_iff_eq.mpr hh, Bool.true_and]
      · rw [if_pos hh, beq_eq_false_iff_ne.mpr hh, Bool.false_and]

/-- Claim C1 (counterexample): the sandbox URL matcher does not implement
the claim's matching relation.  With pattern path "/api/*" the code also
matches the url path "/apix" (it tests the prefix "/api", i.e. the part
before the star with its trailing slash removed, while the claim's relation
tests the prefix "/api/"), and with pattern path "/v1" the code also matches
the url path "/v1//" (it strips every trailing slash, while the claim
ignores only a single one). -/
theorem c1_url_matcher_counterexample :
    (url_matches_pattern ⟨"https".data, "h".data, "/apix".data⟩
        ⟨"https".data, "h".data, "/api/*".data⟩ = true ∧
      spec_url_matches ⟨"https".data, "h".data, "/apix".data⟩
        ⟨"https".data, "h".data, "/api/*".data⟩ = false) ∧
    (url_matches_pattern ⟨"https".data, "h".data, "/v1//".data⟩
        ⟨"https".data, "h".data, "/v1".data⟩ = true ∧
      spec_url_matches ⟨"https".data, "h".data, "/v1//".data⟩
        ⟨"https".data, "h".data, "/v1".data⟩ = false) := by
  constructor
  · constructor
    · decide
    · decide
  · constructor
    · decide
    · decide

/-- Claim C1 (amended): the matcher implements the amended relation — host
and scheme clauses exactly as claimed; a wildcard-ish pattern path matches
the url paths starting with the part before the star with its trailing
slashes removed; an exact pattern path matches ignoring any number of
trailing slashes on both sides.  The claim's particular examples hold:
a wildcard subdomain pattern matches the subdomain, not the apex; a bare
slash path matches every path on the host; an exact path matches only
itself. -/
theorem c1_url_matcher_amended :
    (∀ url pattern : ParsedUrl, url_matches_pattern url pattern = amended_url_matches url pattern) ∧
    url_matches_pattern ⟨"https".data, "api.example.com".data, "/x".data⟩
      ⟨"https".data, "*.example.com".data, "/*".data⟩ = true ∧
    url_matches_pattern ⟨"https".data, "example.com".data, "/x".data⟩
      ⟨"https".data, "*.example.com".data, "/*".data⟩ = false ∧
    url_matches_pattern ⟨"https".data, "api.example.com".data, "/any/path".data⟩
      ⟨"https".data, "api.example.com".data, "/".data⟩ = true ∧
    url_matches_pattern ⟨"https".data, "api.example.com".data, "/v1".data⟩
      ⟨"https".data, "api.example.com".data, "/v1".data⟩ = true ∧
    url_matches_pattern ⟨"https".data, "api.example.com".data, "/v2".data⟩
      ⟨"https".data, "api.example.com".data, "/v1".data⟩ = false :=
  ⟨url_matches_pattern_eq_amended, by decide, by decide, by decide, by decide, by decide⟩

/-- The header names redacted from request headers by
ExtensionHttpClient._log_request (src/extensions/http_client.py line 174). -/
def request_header_deny : List PyStr :=
  ["authorization".data, "x-api-key".data, "api-key".data, "cookie".data]

/-- The header names redacted from response headers by _log_request
(line 182). -/
def response_header_deny : List PyStr :=
  ["set-cookie".data, "authorization".data]

/-- The deny set exactly as claim C2 and invariant I7 word it: one set for
request and response headers alike. -/
def claim_header_deny : List PyStr :=
  ["authorization".data, "x-api-key".data, "api-key".data,
   "cookie".data, "set-cookie".data]

/-- The redaction loop over request headers (_log_request lines 171-177);
a Python dict of headers is modelled as an association list. -/
def redact_request_headers (hs : List (PyStr × PyStr)) : List (PyStr × PyStr) :=
  hs.map (fun kv => if pyLower kv.1 ∈ request_header_deny then (kv.1, "[REDACTED]".data) else kv)

/-- The redaction loop over response headers (_log_request lines 179-185).
The str() conversion applied to kept values is the identity on strings. -/
def redact_response_headers (hs : List (PyStr × PyStr)) : List (PyStr × PyStr) :=
  hs.map (fun kv => if pyLower kv.1 ∈ response_header_deny then (kv.1, "[REDACTED]".data) else kv)

/-- One row of the extension_network_audit table, as _log_request persists
it.  The id, extension_id, created_at, request_body_hash and
request_body_size columns are omitted: they are produced by uuid, the
clock and hashlib, all outside the repository, and no claim depends on
them. -/
structure AuditRow where
  extension_name : PyStr
  target_url : PyStr
  method : PyStr
  request_headers : Option (List (PyStr × PyStr))
  response_status : Option Int
  response_time_ms : Option Int
  response_headers : Option (List (PyStr × PyStr))
  response_body_excerpt : Option PyStr
  response_body_size : Option Nat
  allowed : Bool
  blocked_reason : Option PyStr
  error : Option PyStr
deriving DecidableEq

/-- ExtensionHttpClient._log_request (src/extensions/http_client.py,
lines 154-219): the audit row it constructs and commits.  A falsy
(absent or empty) header dict is stored as NULL. -/
def log_request_row (extension_name method url : PyStr) (allowed : Bool)
    (blocked_reason : Option PyStr) (request_headers : Option (List (PyStr × PyStr)))
    (response_status : Option Int) (response_time_ms : Option Int)
    (response_headers : Option (List (PyStr × PyStr)))
    (response_body : Option PyStr) (error : Option PyStr) : AuditRow :=
  let safe_headers := match request_headers with
    | some hs => redact_request_headers hs
    | none => []
  let safe_response_headers := match response_headers with
    | some hs => redact_response_headers hs
    | none => []
  let body_fields : Option PyStr × Option Nat := match response_body with
    | some b => if b ≠ [] then (some (if b.length > 500 then b.take 500 else b), some b.length)
                else (none, none)
    | none => (none, none)
  { extension_name := extension_name
    target_url := url
    method := pyUpper method
    request_headers := if safe_headers = [] then none else some safe_headers
    response_status := response_status
    response_time_ms := response_time_ms
    response_headers := if safe_response_headers = [] then none else some safe_response_headers
    response_body_excerpt := body_fields.1
    response_body_size := body_fields.2
    allowed := allowed
    blocked_reason := blocked_reason
    error := error }

/-- One entry of the manifest's permissions.network list: a URL pattern
(already parsed) and an optional methods list.  A plain string entry is a
Perm with methods none. -/
structure Perm where
  url : ParsedUrl
  methods : Option (List PyStr)
deriving DecidableEq

/-- The per-pattern loop of _check_url_allowed (lines 90-98): a pattern is
skipped when it lists methods (non-empty, Python truthiness) not containing
the request method case-insensitively; the first remaining pattern that
matches allows the request. -/
def check_url_loop (urlP : ParsedUrl) (method : PyStr) : List Perm → Bool
  | [] => false
  | perm :: rest =>
    let methodOk := match perm.methods with
      | some ms => if ms ≠ [] then (ms.map pyUpper).contains (pyUpper method) else true
      | none => true
    if methodOk && url_matches_pattern urlP perm.url then true
    else check_url_loop urlP method rest

/-- ExtensionHttpClient._check_url_allowed (lines 73-100): returns the
allowed flag and the denial reason. -/
def check_url_allowed (perms : List Perm) (rawUrl : PyStr) (urlP : ParsedUrl)
    (method : PyStr) : Bool × Option PyStr :=
  if perms = [] then (false, some ("No network permissions defined in manifest".data))
  else if check_url_loop urlP method perms then (true, none)
  else (false, some ("URL not in whitelist: ".data ++ rawUrl))

/-- The error raised by the sandbox request operation: the Python
PermissionError (the spec's PermissionDenied kind) with its message, or a
re-raised transport exception. -/
inductive SandboxError where
  | permissionError (msg : PyStr)
  | transportError (msg : PyStr)
deriving DecidableEq

/-- The outcome of the transport layer (httpx), which is outside the
repository: a response with status, headers and text, or an exception. -/
inductive HttpResult where
  | ok (status : Int) (headers : List (PyStr × PyStr)) (text : PyStr)
  | exn (msg : PyStr)
deriving DecidableEq

deriving instance DecidableEq for Except

/-- What one call of ExtensionHttpClient.request leaves behind: the audit
rows persisted (in order), the outbound requests actually handed to the
transport, and the call's result. -/
structure RequestOutcome where
  audits : List AuditRow
  sent : List PyStr
  result : Except SandboxError (Int × List (PyStr × PyStr) × PyStr)
deriving DecidableEq

/-- ExtensionHttpClient.request (src/extensions/http_client.py, lines
221-303).  The request body only feeds the omitted hash fields; elapsed_ms
models the wall-clock measurement around the transport call. -/
def http_request (extension_name : PyStr) (perms : List Perm) (method : PyStr)
    (rawUrl : PyStr) (urlP : ParsedUrl) (headers : Option (List (PyStr × PyStr)))
    (transport : HttpResult) (elapsed_ms : Int) : RequestOutcome :=
  let checked := check_url_allowed perms rawUrl urlP method
  if checked.1 = false then
    { audits := [log_request_row extension_name method rawUrl false checked.2 headers
        none none none none none]
      sent := []
      result := .error (.permissionError ("Network request blocked: ".data ++ checked.2.getD [])) }
  else
    match transport with
    | .ok status rheaders text =>
      { audits := [log_request_row extension_name method rawUrl true none headers
          (some status) (some elapsed_ms) (some rheaders)
          (if text ≠ [] then some (text.take 1000) else none) none]
        sent := [rawUrl]
        result := .ok (status, rheaders, text) }
    | .exn msg =>
      { audits := [log_request_row extension_name method rawUrl true none headers
          none (some elapsed_ms) none none (some msg)]
        sent := [rawUrl]
        result := .error (.transportError msg) }

/-- A pair surviving request-header redaction whose lowercased name is in
the request deny set carries the marker. -/
theorem redacted_kv_request (hs : List (PyStr × PyStr)) (k v : PyStr)
    (hmem : (k, v) ∈ redact_request_headers hs)
    (hdeny : pyLower k ∈ request_header_deny) : v = "[REDACTED]".data := by
  unfold redact_request_headers at hmem
  obtain ⟨kv, hkv, heq⟩ := List.mem_map.mp hmem
  by_cases hd : pyLower kv.1 ∈ request_header_deny
  · rw [if_pos hd] at heq
    cases heq
    rfl
  · rw [if_neg hd] at heq
    rw [heq] at hd
    exact absurd hdeny hd

/-- Same for response-header redaction and the response deny set. -/
theorem redacted_kv_response (hs : List (PyStr × PyStr)) (k v : PyStr)
    (hmem : (k, v) ∈ redact_response_headers hs)
    (hdeny : pyLower k ∈ response_header_deny) : v = "[REDACTED]".data := by
  unfold redact_response_headers at hmem
  obtain ⟨kv, hkv, heq⟩ := List.mem_map.mp hmem
  by_cases hd : pyLower kv.1 ∈ response_header_deny
  · rw [if_pos hd] at heq
    cases heq
    rfl
  · rw [if_neg hd] at heq
    rw [heq] at hd
    exact absurd hdeny hd

/-- Every audit row built by _log_request has its request headers redacted
on the request deny set and its response headers redacted on the response
deny set. -/
theorem log_request_row_redacted (en m u : PyStr) (al : Bool) (br : Option PyStr)
    (rh : Option (List (PyStr × PyStr))) (rs : Option Int) (rt : Option Int)
    (respH : Option (List (PyStr × PyStr))) (rb : Option PyStr) (er : Option PyStr)
    (k v : PyStr) :
    ((k, v) ∈ (log_request_row en m u al br rh rs rt respH rb er).request_headers.getD [] →
      pyLower k ∈ request_header_deny → v = "[REDACTED]".data) ∧
    ((k, v) ∈ (log_request_row en m u al br rh rs rt respH rb er).response_headers.getD [] →
      pyLower k ∈ response_header_deny → v = "[REDACTED]".data) := by
  constructor
  · intro hmem hdeny
    cases rh with
    | none => simp [log_request_row] at hmem
    | some hs =>
      by_cases hnil : redact_request_headers hs = []
      · simp [log_request_row, hnil] at hmem
      · simp only [log_request_row, hnil, if_neg hnil, Option.getD_some] at hmem
        exact redacted_kv_request hs k v hmem hdeny
  · intro hmem hdeny
    cases respH with
    | none => simp [log_request_row] at hmem
    | some hs =>
      by_cases hnil : redact_response_headers hs = []
      · simp [log_request_row, hnil] at hmem
      · simp only [log_request_row, hnil, if_neg hnil, Option.getD_some] at hmem
        exact redacted_kv_response hs k v hmem hdeny

/-- Claim C2 (counterexample): redaction does not use one deny set for both
directions.  An allowed request whose response carries a "cookie" header
persists the header's value verbatim in the audit row, although "cookie" is
in the claim's case-insensitive deny set. -/
theorem c2_redaction_counterexample :
    ((http_request "ext".data
        [⟨⟨"https".data, "api.ok.com".data, "/*".data⟩, none⟩]
        "GET".data "https://api.ok.com/x".data
        ⟨"https".data, "api.ok.com".data, "/x".data⟩
        none (.ok 200 [("cookie".data, "secret123".data)] []) 5).audits.map
      AuditRow.response_headers) = [some [("cookie".data, "secret123".data)]] ∧
    pyLower "cookie".data ∈ claim_header_deny ∧
    ("secret123".data : PyStr) ≠ "[REDACTED]".data := by
  refine ⟨by decide, by decide, by decide⟩

/-- Claim C2 (amended): every audit row the sandbox persists, for allowed
and denied attempts alike, has the values of request headers whose name
case-insensitively matches the request deny set (authorization, x-api-key,
api-key, cookie) and of response headers whose name matches the response
deny set (set-cookie, authorization) replaced by the fixed marker; the two
directions use these two different deny sets, not the claim's single one. -/
theorem c2_redaction_amended (extension_name : PyStr) (perms : List Perm)
    (method rawUrl : PyStr) (urlP : ParsedUrl)
    (headers : Option (List (PyStr × PyStr))) (transport : HttpResult)
    (elapsed : Int) (row : AuditRow) (k v : PyStr)
    (hrow : row ∈ (http_request extension_name perms method rawUrl urlP headers
      transport elapsed).audits) :
    ((k, v) ∈ row.request_headers.getD [] → pyLower k ∈ request_header_deny →
      v = "[REDACTED]".data) ∧
    ((k, v) ∈ row.response_headers.getD [] → pyLower k ∈ response_header_deny →
      v = "[REDACTED]".data) := by
  unfold http_request at hrow
  by_cases hc : (check_url_allowed perms rawUrl urlP method).1 = false
  · rw [if_pos hc] at hrow
    simp only [List.mem_singleton] at hrow
    subst hrow
    exact log_request_row_redacted _ _ _ _ _ _ _ _ _ _ _ k v
  · rw [if_neg hc] at hrow
    cases transport with
    | ok st hs tx =>
      simp only [List.mem_singleton] at hrow
      subst hrow
      exact log_request_row_redacted _ _ _ _ _ _ _ _ _ _ _ k v
    | exn msg =>
      simp only [List.mem_singleton] at hrow
      subst hrow
      exact log_request_row_redacted _ _ _ _ _ _ _ _ _ _ _ k v

/-- Witness for c2_redaction_amended at a concrete denied call carrying an
Authorization request header. -/
theorem c2_redaction_amended_witness : ("[REDACTED]".data : PyStr) = "[REDACTED]".data :=
  (c2_redaction_amended "ext".data [] "GET".data "https://evil.com/x".data
      ⟨"https".data, "evil.com".data, "/x".data⟩
      (some [("Authorization".data, "Bearer tok".data)]) (.ok 200 [] []) 0
      (log_request_row "ext".data "GET".data "https://evil.com/x".data false
        (some ("No network permissions defined in manifest".data))
        (some [("Authorization".data, "Bearer tok".data)]) none none none none none)
      "Authorization".data "[REDACTED]".data (by decide)).1 (by decide) (by decide)

/-- If no declared pattern matches the URL the permission loop denies,
whatever the per-pattern method filters say. -/
theorem check_url_loop_none (urlP : ParsedUrl) (method : PyStr) (perms : List Perm)
    (h : ∀ perm ∈ perms, url_matches_pattern urlP perm.url = false) :
    check_url_loop urlP method perms = false := by
  induction perms with
  | nil => rfl
  | cons p rest ih =>
    unfold check_url_loop
    rw [h p (List.mem_cons_self p rest)]
    simp only [Bool.and_false, Bool.false_eq_true, if_false]
    exact ih (fun q hq => h q (List.mem_cons_of_mem p hq))

/-- Claim C3: a sandbox request whose URL matches no declared pattern
raises the permission error, sends nothing outbound, and persists exactly
one audit row with allowed false and the claimed blocked_reason (the
whitelist message, or the no-permissions message when the extension
declares no network permissions at all). -/
theorem c3_denied_request_audited (extension_name : PyStr) (perms : List Perm)
    (method rawUrl : PyStr) (urlP : ParsedUrl)
    (headers : Option (List (PyStr × PyStr))) (transport : HttpResult) (elapsed : Int)
    (h : ∀ perm ∈ perms, url_matches_pattern urlP perm.url = false) :
    (http_request extension_name perms method rawUrl urlP headers transport elapsed).sent
      = [] ∧
    ((http_request extension_name perms method rawUrl urlP headers transport
        elapsed).audits.map (fun r => (r.allowed, r.blocked_reason))) =
      [(false, some (if perms = [] then "No network permissions defined in manifest".data
                     else "URL not in whitelist: ".data ++ rawUrl))] ∧
    (http_request extension_name perms method rawUrl urlP headers transport
        elapsed).result =
      .error (.permissionError ("Network request blocked: ".data ++
        (if perms = [] then "No network permissions defined in manifest".data
         else "URL not in whitelist: ".data ++ rawUrl))) := by
  have hchk : check_url_allowed perms rawUrl urlP method =
      (false, some (if perms = [] then "No network permissions defined in manifest".data
                    else "URL not in whitelist: ".data ++ rawUrl)) := by
    unfold check_url_allowed
    by_cases hp : perms = []
    · rw [if_pos hp, if_pos hp]
    · rw [if_neg hp, if_neg hp, check_url_loop_none urlP method perms h]
      simp only [Bool.false_eq_true, if_false]
  unfold http_request
  rw [hchk]
  simp only [if_pos rfl, List.map_cons, List.map_nil, Option.getD_some]
  exact ⟨rfl, rfl, rfl⟩

/-- Witness for c3_denied_request_audited: scenario S4, an extension allowed
only https api.ok.com calls https evil.com. -/
theorem c3_denied_request_audited_witness :
    (∀ perm ∈ ([⟨⟨"https".data, "api.ok.com".data, "/*".data⟩, none⟩] : List Perm),
      url_matches_pattern ⟨"https".data, "evil.com".data, "/x".data⟩ perm.url = false) ∧
    ((http_request "ext".data [⟨⟨"https".data, "api.ok.com".data, "/*".data⟩, none⟩]
        "GET".data "https://evil.com/x".data ⟨"https".data, "evil.com".data, "/x".data⟩
        none (.ok 200 [] []) 0).sent = [] ∧
      ((http_request "ext".data [⟨⟨"https".data, "api.ok.com".data, "/*".data⟩, none⟩]
          "GET".data "https://evil.com/x".data ⟨"https".data, "evil.com".data, "/x".data⟩
          none (.ok 200 [] []) 0).audits.map (fun r => (r.allowed, r.blocked_reason))) =
        [(false, some (if ([⟨⟨"https".data, "api.ok.com".data, "/*".data⟩, none⟩] : List Perm) = []
                       then "No network permissions defined in manifest".data
                       else "URL not in whitelist: ".data ++ "https://evil.com/x".data))] ∧
      (http_request "ext".data [⟨⟨"https".data, "api.ok.com".data, "/*".data⟩, none⟩]
          "GET".data "https://evil.com/x".data ⟨"https".data, "evil.com".data, "/x".data⟩
          none (.ok 200 [] []) 0).result =
        .error (.permissionError ("Network request blocked: ".data ++
          (if ([⟨⟨"https".data, "api.ok.com".data, "/*".data⟩, none⟩] : List Perm) = []
           then "No network permissions defined in manifest".data
           else "URL not in whitelist: ".data ++ "https://evil.com/x".data)))) :=
  ⟨by decide,
    c3_denied_request_audited "ext".data _ "GET".data "https://evil.com/x".data
      ⟨"https".data, "evil.com".data, "/x".data⟩ none (.ok 200 [] []) 0 (by decide)⟩

/-- UTC instants, millisecond precision (datetime values are only stored
and compared for truthiness, never computed with). -/
abbrev Time := Nat

/-- Python truthiness of an optional string (None and "" are falsy). -/
def truthyStr : Option String → Bool
  | some s => s ≠ ""
  | none => false

/-- Python `a or b` for an optional string a and a string b. -/
def pyOrStr (o : Option String) (d : String) : String :=
  match o with
  | some s => if s ≠ "" then s else d
  | none => d

/-- core.schemas.MessageCreate.  tool_calls, tool_results, raw_request and
raw_response are opaque JSON payloads carried through unchanged; they are
modelled as opaque strings. -/
structure MessageCreate where
  role : String
  content : Option String := none
  model : Option String := none
  provider : Option String := none
  input_tokens : Option Int := none
  output_tokens : Option Int := none
  total_tokens : Option Int := none
  cost : Option Rat := none
  latency_ms : Option Int := none
  tool_calls : Option String := none
  tool_results : Option String := none
  raw_request : Option String := none
  raw_response : Option String := none
deriving DecidableEq

/-- core.schemas.NodeExecutionCreate with exactly the shipped fields: in
particular there is no status field, although run_service.py line 94 reads
node_data.status and tests/backend/test_logic_edge_cases.py constructs the
schema with a supplied status and asserts it is stored.  A "status" key in
a payload is therefore silently discarded by pydantic, and the service's
attribute access raises AttributeError; see ingest_trace below.  State
snapshots are JSON objects, modelled as association lists over opaque
values. -/
structure NodeExecutionCreate where
  node_key : String
  node_type : Option String := none
  order : Option Int := none
  started_at : Option Time := none
  ended_at : Option Time := none
  state_in : Option (List (String × String)) := none
  state_out : Option (List (String × String)) := none
  messages : List MessageCreate := []
  error : Option String := none
deriving DecidableEq

/-- core.schemas.EdgeCreate. -/
structure EdgeCreate where
  from_node : String
  to_node : String
  condition_label : Option String := none
deriving DecidableEq

/-- core.schemas.TraceIngest. -/
structure TraceIngest where
  run_id : Option String := none
  graph_id : Option String := none
  graph_version : Option String := none
  framework : String := "langgraph"
  agent_id : Option String := none
  started_at : Option Time := none
  ended_at : Option Time := none
  input_state : Option (List (String × String)) := none
  output_state : Option (List (String × String)) := none
  nodes : List NodeExecutionCreate := []
  edges : List EdgeCreate := []
  status : String := "completed"
  error : Option String := none
  tags : Option (List String) := none
  run_metadata : Option (List (String × String)) := none
deriving DecidableEq

/-- The three disjoint maps computed by RunService._compute_state_diff
(src/services/run_service.py, lines 161-182). -/
structure StateDiff where
  added : List (String × String)
  removed : List (String × String)
  modified : List (String × String × String)
deriving DecidableEq

/-- RunService._compute_state_diff.  The Python set union iterates in an
unspecified order; keys are visited here in first-occurrence order, which
is immaterial to every claim (the diff is deterministic per payload). -/
def compute_state_diff (state_in state_out : List (String × String)) : StateDiff :=
  let all_keys := ((state_in.map Prod.fst) ++ (state_out.map Prod.fst)).dedup
  { added := all_keys.filterMap (fun k =>
      match state_in.lookup k, state_out.lookup k with
      | none, some v => some (k, v)
      | _, _ => none)
    removed := all_keys.filterMap (fun k =>
      match state_in.lookup k, state_out.lookup k with
      | some v, none => some (k, v)
      | _, _ => none)
    modified := all_keys.filterMap (fun k =>
      match state_in.lookup k, state_out.lookup k with
      | some a, some b => if a ≠ b then some (k, a, b) else none
      | _, _ => none) }

/-- One row of the runs table (db/models.py Run).  uuid-generated ids are
modelled as strings produced by gen_uuid below. -/
structure RunRow where
  id : String
  graph_id : Option String := none
  graph_version : Option String := none
  framework : String := "langgraph"
  agent_id : Option String := none
  status : String := "completed"
  started_at : Time := 0
  ended_at : Option Time := none
  input_state : Option (List (String × String)) := none
  output_state : Option (List (String × String)) := none
  error : Option String := none
  total_tokens : Int := 0
  total_cost : Rat := 0
  total_latency_ms : Int := 0
deriving DecidableEq

/-- One row of the node_executions table.  Generated uuid primary keys are
modelled as fresh naturals.  node_key is nullable here because the MCP
ingest path inserts args.get("node_key"), which may be absent. -/
structure NodeRow where
  id : Nat
  run_id : String
  node_key : Option String := none
  node_type : Option String := none
  order : Int := 0
  status : String := "completed"
  started_at : Time := 0
  ended_at : Time := 0
  state_in : Option (List (String × String)) := none
  state_out : Option (List (String × String)) := none
  state_diff : Option StateDiff := none
  error : Option String := none
  latency_ms : Int := 0
deriving DecidableEq

/-- One row of the messages table; its own uuid primary key is never read
back and is omitted. -/
structure MsgRow where
  node_execution_id : Nat
  order : Int := 0
  role : Option String := none
  content : Option String := none
  model : Option String := none
  provider : Option String := none
  input_tokens : Option Int := none
  output_tokens : Option Int := none
  total_tokens : Option Int := none
  cost : Option Rat := none
  latency_ms : Option Int := none
deriving DecidableEq

/-- One row of the edges table. -/
structure EdgeRow where
  run_id : String
  from_node : Option String := none
  to_node : Option String := none
  condition_label : Option String := none
  order : Int := 0
deriving DecidableEq

/-- One row of the evaluations table (the fields the cascade claims touch). -/
structure EvalRow where
  id : Nat
  run_id : String
  node_execution_id : Option Nat := none
  evaluator : Option String := none
  score : Option Rat := none
  label : Option String := none
  comment : Option String := none
  is_automated : Bool := false
deriving DecidableEq

/-- A committed snapshot of the five tables the ingestion claims touch. -/
structure DB where
  runs : List RunRow := []
  nodes : List NodeRow := []
  messages : List MsgRow := []
  edges : List EdgeRow := []
  evals : List EvalRow := []
deriving DecidableEq

/-- Models str(uuid.uuid4()) for run ids: the supply parameter makes the
freshness of generated identifiers explicit. -/
def gen_uuid (ids : Nat) : String := "uuid-" ++ toString ids

/-- RunRepository.delete_run_cascade (src/repositories/run_repository.py,
lines 37-55): deletes the run's edges, the messages of each of its node
executions, its node executions, and the run row itself.  Evaluations are
not touched by this function. -/
def delete_run_cascade (db : DB) (run_id : String) : DB :=
  -- node_ids = the ids of the run's node executions; the message loop
  -- deletes the messages of each of them.
  { runs := db.runs.filter (fun r => r.id != run_id)
    nodes := db.nodes.filter (fun n => n.run_id != run_id)
    messages := db.messages.filter (fun m =>
      !(((db.nodes.filter (fun n => n.run_id == run_id)).map NodeRow.id).any
        (fun i => i == m.node_execution_id)))
    edges := db.edges.filter (fun e => e.run_id != run_id)
    evals := db.evals }

/-- The message-loop accumulation of node_latency in RunService.ingest_trace
(lines 130-131): Python truthiness skips both null and zero latencies.  In
the shipped program the node loop raises at its first iteration (see
ingest_trace), so ingest only ever evaluates this and the three run-level
accumulators below over empty lists; the definitions transcribe the source
lines nonetheless. -/
def node_latency (msgs : List MessageCreate) : Int :=
  msgs.foldl (fun acc m =>
    match m.latency_ms with
    | some v => if v ≠ 0 then acc + v else acc
    | none => acc) 0

/-- The run-level total_tokens accumulation (lines 126-127). -/
def run_total_tokens (nodes : List NodeExecutionCreate) : Int :=
  nodes.foldl (fun acc nd =>
    nd.messages.foldl (fun a m =>
      match m.total_tokens with
      | some v => if v ≠ 0 then a + v else a
      | none => a) acc) 0

/-- The run-level total_cost accumulation (lines 128-129). -/
def run_total_cost (nodes : List NodeExecutionCreate) : Rat :=
  nodes.foldl (fun acc nd =>
    nd.messages.foldl (fun a m =>
      match m.cost with
      | some v => if v ≠ 0 then a + v else a
      | none => a) acc) 0

/-- The run-level total_latency accumulation (line 134): the sum of the
per-node latencies. -/
def run_total_latency (nodes : List NodeExecutionCreate) : Int :=
  nodes.foldl (fun acc nd => acc + node_latency nd.messages) 0

/-- The edge loop of ingest_trace (lines 137-146). -/
def build_edge_rows (run_id : String) : Nat → List EdgeCreate → List EdgeRow
  | _, [] => []
  | eorder, e :: rest =>
    { run_id := run_id
      from_node := some e.from_node
      to_node := some e.to_node
      condition_label := e.condition_label
      order := eorder } :: build_edge_rows run_id (eorder + 1) rest

/-- The Run row built by ingest_trace (lines 54-72) with the aggregate
patch of lines 148-150 applied (the code commits only the patched row). -/
def build_run_row (t : TraceIngest) (run_id : String) (now : Time) : RunRow :=
  { id := run_id
    graph_id := t.graph_id
    graph_version := t.graph_version
    framework := t.framework
    agent_id := t.agent_id
    status := t.status
    started_at := t.started_at.getD now
    ended_at := match t.ended_at with
      | some e => some e
      | none => if t.status ≠ "running" then some now else none
    input_state := t.input_state
    output_state := t.output_state
    error := t.error
    total_tokens := run_total_tokens t.nodes
    total_cost := run_total_cost t.nodes
    total_latency_ms := run_total_latency t.nodes }

/-- A raised Python exception: the service node loop raises AttributeError
(message in Python: 'NodeExecutionCreate' object has no attribute
'status', rendered here without quotes) because the shipped schema has no
status attribute. -/
inductive PyError where
  | attributeError (msg : String)
deriving DecidableEq

/-- The response dict of a successful ingest. -/
structure IngestReply where
  run_id : String
  node_count : Nat
  edge_count : Nat
deriving DecidableEq

/-- The outcome of one RunService.ingest_trace call: the final committed
database, the sequence of committed snapshots in order
(delete_run_cascade commits once on the upsert path, ingest_trace commits
once at the end when it gets there), and the returned reply or the raised
exception. -/
structure IngestResult where
  db : DB
  commits : List DB
  result : Except PyError IngestReply

/-- The insertion phase of ingest_trace that the shipped program can
complete: it is reached only for payloads without nodes (see ingest_trace
below), where it adds the Run row (lines 54-72 with the aggregate patch of
lines 148-150; the accumulators fold over the empty node list) and the
Edge rows. -/
def insert_new_run (base : DB) (t : TraceIngest) (run_id : String) (now : Time) : DB :=
  { runs := base.runs ++ [build_run_row t run_id now]
    nodes := base.nodes
    messages := base.messages
    edges := base.edges ++ build_edge_rows run_id 0 t.edges
    evals := base.evals }

/-- RunService.ingest_trace (src/services/run_service.py, lines 25-159) as
shipped.  now models datetime.now(); ids models the uuid4 supply.  On the
upsert path the code calls repo.delete_run_cascade, which issues its own
commit (run_repository.py line 55) before any replacement row is
inserted; the commits list records the snapshots in committed order.  For
a payload with at least one node, the first iteration of the node loop
evaluates node_data.status (line 94) and the shipped
core/schemas.py NodeExecutionCreate has no such attribute, so the program
raises AttributeError right there: the pending Run insert is rolled back
when the request-scoped session closes, nothing after the (already
committed) delete is committed, and the exception propagates to the
caller. -/
def ingest_trace (db0 : DB) (t : TraceIngest) (now : Time) (ids : Nat) : IngestResult :=
  let run_id := pyOrStr t.run_id (gen_uuid ids)
  if db0.runs.any (fun r => r.id == run_id) then
    if t.nodes = [] then
      { db := insert_new_run (delete_run_cascade db0 run_id) t run_id now
        commits := [delete_run_cascade db0 run_id,
                    insert_new_run (delete_run_cascade db0 run_id) t run_id now]
        result := .ok { run_id := run_id, node_count := t.nodes.length,
                        edge_count := t.edges.length } }
    else
      { db := delete_run_cascade db0 run_id
        commits := [delete_run_cascade db0 run_id]
        result := .error (.attributeError
          "NodeExecutionCreate object has no attribute status") }
  else
    if t.nodes = [] then
      { db := insert_new_run db0 t run_id now
        commits := [insert_new_run db0 t run_id now]
        result := .ok { run_id := run_id, node_count := t.nodes.length,
                        edge_count := t.edges.length } }
    else
      { db := db0
        commits := []
        result := .error (.attributeError
          "NodeExecutionCreate object has no attribute status") }

/-- A message dict as read by the MCP ingest_trace tool (src/mcp/server.py,
lines 97-123): every field is fetched with .get and may be absent. -/
structure McpMessage where
  role : Option String := none
  content : Option String := none
  model : Option String := none
  provider : Option String := none
  input_tokens : Option Int := none
  output_tokens : Option Int := none
  total_tokens : Option Int := none
  cost : Option Rat := none
  latency_ms : Option Int := none
deriving DecidableEq

/-- A node dict as read by the MCP ingest_trace tool (lines 70-95). -/
structure McpNode where
  node_key : Option String := none
  node_type : Option String := none
  state_in : Option (List (String × String)) := none
  state_out : Option (List (String × String)) := none
  error : Option String := none
  messages : List McpMessage := []
deriving DecidableEq

/-- An edge dict as read by the MCP ingest_trace tool (lines 128-137). -/
structure McpEdge where
  from_node : Option String := none
  to_node : Option String := none
  condition_label : Option String := none
deriving DecidableEq

/-- The arguments dict of the MCP ingest_trace tool (lines 37-67). -/
structure McpArgs where
  run_id : Option String := none
  graph_id : Option String := none
  graph_version : Option String := none
  framework : Option String := none
  agent_id : Option String := none
  status : Option String := none
  input_state : Option (List (String × String)) := none
  output_state : Option (List (String × String)) := none
  nodes : List McpNode := []
  edges : List McpEdge := []
  error : Option String := none
  tags : Option (List String) := none
  run_metadata : Option (List (String × String)) := none
deriving DecidableEq

/-- The MCP message-loop latency accumulation (server.py lines 122-123). -/
def mcp_node_latency (msgs : List McpMessage) : Int :=
  msgs.foldl (fun acc m =>
    match m.latency_ms with
    | some v => if v ≠ 0 then acc + v else acc
    | none => acc) 0

/-- The MCP run-level total_tokens accumulation (lines 118-119). -/
def mcp_total_tokens (nodes : List McpNode) : Int :=
  nodes.foldl (fun acc nd =>
    nd.messages.foldl (fun a m =>
      match m.total_tokens with
      | some v => if v ≠ 0 then a + v else a
      | none => a) acc) 0

/-- The MCP run-level total_cost accumulation (lines 120-121). -/
def mcp_total_cost (nodes : List McpNode) : Rat :=
  nodes.foldl (fun acc nd =>
    nd.messages.foldl (fun a m =>
      match m.cost with
      | some v => if v ≠ 0 then a + v else a
      | none => a) acc) 0

/-- The MCP run-level total_latency accumulation (line 126). -/
def mcp_total_latency (nodes : List McpNode) : Int :=
  nodes.foldl (fun acc nd => acc + mcp_node_latency nd.messages) 0

/-- The MCP message rows for one node (lines 97-116). -/
def mcp_build_msg_rows (nid : Nat) : Nat → List McpMessage → List MsgRow
  | _, [] => []
  | morder, m :: rest =>
    { node_execution_id := nid
      order := morder
      role := m.role
      content := m.content
      model := m.model
      provider := m.provider
      input_tokens := m.input_tokens
      output_tokens := m.output_tokens
      total_tokens := m.total_tokens
      cost := m.cost
      latency_ms := m.latency_ms } :: mcp_build_msg_rows nid (morder + 1) rest

/-- The MCP NodeExecution row (lines 70-94 with the latency patch of line
125): order is always the enumeration index, the status is failed exactly
when the node carries a truthy error, and there is no supplied status. -/
def mcp_build_node_row (run_id : String) (now : Time) (nid : Nat) (idx : Nat)
    (nd : McpNode) : NodeRow :=
  { id := nid
    run_id := run_id
    node_key := nd.node_key
    node_type := nd.node_type
    order := idx
    status := if truthyStr nd.error then "failed" else "completed"
    started_at := now
    ended_at := now
    state_in := nd.state_in
    state_out := nd.state_out
    state_diff := match nd.state_in, nd.state_out with
      | some si, some so => if si ≠ [] ∧ so ≠ [] then some (compute_state_diff si so) else none
      | _, _ => none
    error := nd.error
    latency_ms := mcp_node_latency nd.messages }

/-- The MCP node loop. -/
def mcp_build_node_and_msg_rows (run_id : String) (now : Time) (ids : Nat) :
    Nat → List McpNode → List NodeRow × List MsgRow
  | _, [] => ([], [])
  | idx, nd :: rest =>
    let node := mcp_build_node_row run_id now (ids + idx) idx nd
    let msgs := mcp_build_msg_rows (ids + idx) 0 nd.messages
    let r := mcp_build_node_and_msg_rows run_id now ids (idx + 1) rest
    (node :: r.1, msgs ++ r.2)

/-- The MCP edge loop (lines 128-137). -/
def mcp_build_edge_rows (run_id : String) : Nat → List McpEdge → List EdgeRow
  | _, [] => []
  | eorder, e :: rest =>
    { run_id := run_id
      from_node := e.from_node
      to_node := e.to_node
      condition_label := e.condition_label
      order := eorder } :: mcp_build_edge_rows run_id (eorder + 1) rest

/-- The MCP Run row (lines 53-67) with the aggregate patch of lines
139-141. -/
def mcp_build_run_row (args : McpArgs) (run_id : String) (now : Time) : RunRow :=
  { id := run_id
    graph_id := args.graph_id
    graph_version := args.graph_version
    framework := args.framework.getD "langgraph"
    agent_id := args.agent_id
    status := args.status.getD "completed"
    started_at := now
    ended_at := if args.status ≠ some "running" then some now else none
    input_state := args.input_state
    output_state := args.output_state
    error := args.error
    total_tokens := mcp_total_tokens args.nodes
    total_cost := mcp_total_cost args.nodes
    total_latency_ms := mcp_total_latency args.nodes }

/-- The MCP ingest_trace tool (src/mcp/server.py, lines 37-157).  Unlike
the service path it never deletes an existing run: it inserts the new Run
row directly, so when a run with the same id already exists the commit
violates the primary key of the runs table, the except branch rolls the
transaction back, and the tool returns an error dict.  The Bool result is
true for the ingested reply and false for the error reply.
mcp_insert_new_run is the insertion phase, all rows the tool adds. -/
def mcp_insert_new_run (db : DB) (args : McpArgs) (run_id : String) (now : Time) (ids : Nat) : DB :=
  { runs := db.runs ++ [mcp_build_run_row args run_id now]
    nodes := db.nodes ++ (mcp_build_node_and_msg_rows run_id now ids 0 args.nodes).1
    messages := db.messages ++ (mcp_build_node_and_msg_rows run_id now ids 0 args.nodes).2
    edges := db.edges ++ mcp_build_edge_rows run_id 0 args.edges
    evals := db.evals }

def mcp_ingest_trace (db : DB) (args : McpArgs) (now : Time) (ids : Nat) : DB × Bool :=
  let run_id := pyOrStr args.run_id (gen_uuid ids)
  -- db.commit(): the runs.id primary key rejects a duplicate id; the
  -- exception handler rolls back, leaving the database unchanged.
  if db.runs.any (fun r => r.id == run_id) then (db, false)
  else (mcp_insert_new_run db args run_id now ids, true)

/-- The uuid- and clock-independent part of a Run row: everything the
idempotence claim compares (identity, metadata, status and the three
aggregates; started_at and ended_at depend on the wall clock). -/
structure RunRowProj where
  id : String
  graph_id : Option String
  graph_version : Option String
  framework : String
  agent_id : Option String
  status : String
  input_state : Option (List (String × String))
  output_state : Option (List (String × String))
  error : Option String
  total_tokens : Int
  total_cost : Rat
  total_latency_ms : Int
deriving DecidableEq

def RunRow.proj (r : RunRow) : RunRowProj :=
  { id := r.id, graph_id := r.graph_id, graph_version := r.graph_version,
    framework := r.framework, agent_id := r.agent_id, status := r.status,
    input_state := r.input_state, output_state := r.output_state,
    error := r.error, total_tokens := r.total_tokens,
    total_cost := r.total_cost, total_latency_ms := r.total_latency_ms }

/-- The uuid- and clock-independent part of a NodeExecution row. -/
structure NodeRowProj where
  run_id : String
  node_key : Option String
  node_type : Option String
  order : Int
  status : String
  state_in : Option (List (String × String))
  state_out : Option (List (String × String))
  state_diff : Option StateDiff
  error : Option String
  latency_ms : Int
deriving DecidableEq

def NodeRow.proj (n : NodeRow) : NodeRowProj :=
  { run_id := n.run_id, node_key := n.node_key, node_type := n.node_type,
    order := n.order, status := n.status, state_in := n.state_in,
    state_out := n.state_out, state_diff := n.state_diff, error := n.error,
    latency_ms := n.latency_ms }

/-- The uuid-independent part of a Message row. -/
structure MsgRowProj where
  order : Int
  role : Option String
  content : Option String
  model : Option String
  provider : Option String
  input_tokens : Option Int
  output_tokens : Option Int
  total_tokens : Option Int
  cost : Option Rat
  latency_ms : Option Int
deriving DecidableEq

def MsgRow.proj (m : MsgRow) : MsgRowProj :=
  { order := m.order, role := m.role, content := m.content, model := m.model,
    provider := m.provider, input_tokens := m.input_tokens,
    output_tokens := m.output_tokens, total_tokens := m.total_tokens,
    cost := m.cost, latency_ms := m.latency_ms }

/-- The observation claim C5 compares databases under: all rows of all five
tables up to generated uuids and wall-clock timestamps.  Equality of
dbProj implies equal row counts, equal order fields and equal aggregates. -/
def dbProj (db : DB) :
    List RunRowProj × List NodeRowProj × List MsgRowProj × List EdgeRow × List EvalRow :=
  (db.runs.map RunRow.proj, db.nodes.map NodeRow.proj,
   db.messages.map MsgRow.proj, db.edges, db.evals)

/-- Referential sanity for run id r: if no run row carries id r then no
node or edge row references r either (the foreign keys of the schema). -/
def RunRefIntegrity (db : DB) (r : String) : Prop :=
  (∀ row ∈ db.runs, row.id ≠ r) →
    ((∀ n ∈ db.nodes, n.run_id ≠ r) ∧ (∀ e ∈ db.edges, e.run_id ≠ r))

/-- Every edge row of the edge loop belongs to run_id. -/
theorem build_edges_mem (run_id : String) :
    ∀ (eorder : Nat) (es : List EdgeCreate) (e : EdgeRow),
      e ∈ build_edge_rows run_id eorder es → e.run_id = run_id := by
  intro eorder es
  induction es generalizing eorder with
  | nil => intro e h; exact absurd h (List.not_mem_nil e)
  | cons x rest ih =>
    intro e h
    simp only [build_edge_rows, List.mem_cons] at h
    rcases h with h | h
    · subst h; rfl
    · exact ih (eorder + 1) e h

/-- delete_run_cascade never touches the evaluations table. -/
theorem delete_run_cascade_evals (db : DB) (r : String) :
    (delete_run_cascade db r).evals = db.evals := rfl

/-- Deleting a run that no row references is a no-op. -/
theorem delete_noop (db : DB) (r : String)
    (hruns : ∀ row ∈ db.runs, row.id ≠ r)
    (hnodes : ∀ n ∈ db.nodes, n.run_id ≠ r)
    (hedges : ∀ e ∈ db.edges, e.run_id ≠ r) :
    delete_run_cascade db r = db := by
  have hnfilter : db.nodes.filter (fun n => n.run_id == r) = [] :=
    List.filter_eq_nil_iff.mpr (fun n hn => by simp [hnodes n hn])
  obtain ⟨runs, nodes, msgs, edges, evals⟩ := db
  unfold delete_run_cascade
  simp only [DB.mk.injEq]
  refine ⟨?_, ?_, ?_, ?_, trivial⟩
  · exact List.filter_eq_self.mpr (fun a ha => by simp [hruns a ha])
  · exact List.filter_eq_self.mpr (fun a ha => by simp [hnodes a ha])
  · rw [hnfilter]
    simp
  · exact List.filter_eq_self.mpr (fun a ha => by simp [hedges a ha])

/-- Deleting run r from a clean base extended by exactly the rows the
shipped insertion phase adds for r returns the base: the erase-insert
collapse behind idempotence on the nodeless path. -/
theorem delete_after_insert (base : DB) (t : TraceIngest) (r : String) (now : Time)
    (hruns : ∀ row ∈ base.runs, row.id ≠ r)
    (hnodes : ∀ n ∈ base.nodes, n.run_id ≠ r)
    (hedges : ∀ e ∈ base.edges, e.run_id ≠ r) :
    delete_run_cascade (insert_new_run base t r now) r = base := by
  obtain ⟨bruns, bnodes, bmsgs, bedges, bevals⟩ := base
  unfold delete_run_cascade insert_new_run
  simp only [DB.mk.injEq]
  refine ⟨?_, ?_, ?_, ?_, trivial⟩
  · rw [List.filter_append,
      List.filter_eq_self.mpr (fun a ha => by simp [hruns a ha])]
    have h0 : ([build_run_row t r now].filter (fun x => x.id != r)) = [] := by
      simp [build_run_row]
    rw [h0, List.append_nil]
  · exact List.filter_eq_self.mpr (fun a ha => by simp [hnodes a ha])
  · have hn : bnodes.filter (fun n => n.run_id == r) = [] :=
      List.filter_eq_nil_iff.mpr (fun n hn => by simp [hnodes n hn])
    rw [hn]
    simp
  · rw [List.filter_append,
      List.filter_eq_self.mpr (fun a ha => by simp [hedges a ha]),
      List.filter_eq_nil_iff.mpr (fun e he => by simp [build_edges_mem r 0 t.edges e he]),
      List.append_nil]

/-- Run-row projections do not depend on the clock. -/
theorem build_run_proj_indep (t : TraceIngest) (r : String) (n1 n2 : Time) :
    RunRow.proj (build_run_row t r n1) = RunRow.proj (build_run_row t r n2) := rfl

/-- After delete_run_cascade no surviving row references the deleted run. -/
theorem delete_clean (db : DB) (r : String) :
    (∀ row ∈ (delete_run_cascade db r).runs, row.id ≠ r) ∧
    (∀ n ∈ (delete_run_cascade db r).nodes, n.run_id ≠ r) ∧
    (∀ e ∈ (delete_run_cascade db r).edges, e.run_id ≠ r) := by
  refine ⟨fun x hx => ?_, fun x hx => ?_, fun x hx => ?_⟩ <;>
    · have h := List.of_mem_filter hx
      simpa using h

/-- The computed run id is the supplied one when it is truthy. -/
theorem pyOrStr_some (r d : String) (h : r ≠ "") : pyOrStr (some r) d = r := by
  simp [pyOrStr, h]

/-- With a truthy fixed run id and no nodes, ingest_trace commits the
erased base plus the new run and edge rows. -/
theorem ingest_db_eq (db0 : DB) (t : TraceIngest) (r : String) (now : Time) (ids : Nat)
    (hr : t.run_id = some r) (hr0 : r ≠ "") (hint : RunRefIntegrity db0 r)
    (hnil : t.nodes = []) :
    (ingest_trace db0 t now ids).db =
      insert_new_run (delete_run_cascade db0 r) t r now := by
  have hrid : pyOrStr t.run_id (gen_uuid ids) = r := by
    rw [hr]
    exact pyOrStr_some r _ hr0
  simp only [ingest_trace, hrid]
  by_cases hex : db0.runs.any (fun row => row.id == r) = true
  · rw [if_pos hex, if_pos hnil]
  · rw [if_neg hex, if_pos hnil]
    have hnone : ∀ row ∈ db0.runs, row.id ≠ r := by
      intro row hrow heq
      exact hex (List.any_eq_true.mpr ⟨row, hrow, by simp [heq]⟩)
    obtain ⟨hnd, hed⟩ := hint hnone
    rw [delete_noop db0 r hnone hnd hed]

/-- With a truthy fixed run id and at least one node, the shipped
ingest_trace raises before inserting anything: the committed database is
exactly the erased base (the already committed upsert delete when the run
existed, the untouched database otherwise). -/
theorem ingest_db_noded (db0 : DB) (t : TraceIngest) (r : String) (now : Time) (ids : Nat)
    (hr : t.run_id = some r) (hr0 : r ≠ "") (hint : RunRefIntegrity db0 r)
    (hcons : t.nodes ≠ []) :
    (ingest_trace db0 t now ids).db = delete_run_cascade db0 r := by
  have hrid : pyOrStr t.run_id (gen_uuid ids) = r := by
    rw [hr]
    exact pyOrStr_some r _ hr0
  simp only [ingest_trace, hrid]
  by_cases hex : db0.runs.any (fun row => row.id == r) = true
  · rw [if_pos hex, if_neg hcons]
  · rw [if_neg hex, if_neg hcons]
    have hnone : ∀ row ∈ db0.runs, row.id ≠ r := by
      intro row hrow heq
      exact hex (List.any_eq_true.mpr ⟨row, hrow, by simp [heq]⟩)
    rw [delete_noop db0 r hnone (hint hnone).1 (hint hnone).2]

/-- Service-path idempotence on the shipped program: for a nodeless
payload the second ingest deletes and identically re-inserts the run (up
to clock values); for a payload with nodes both ingests raise before
inserting anything, the first leaving the erased base and the second
leaving it untouched, so the committed states coincide. -/
theorem ingest_idempotent_service (db0 : DB) (t : TraceIngest) (r : String)
    (n1 n2 : Time) (i1 i2 : Nat)
    (hr : t.run_id = some r) (hr0 : r ≠ "") (hint : RunRefIntegrity db0 r) :
    dbProj (ingest_trace (ingest_trace db0 t n1 i1).db t n2 i2).db =
      dbProj (ingest_trace db0 t n1 i1).db := by
  have hrid : ∀ i : Nat, pyOrStr t.run_id (gen_uuid i) = r := by
    intro i
    rw [hr]
    exact pyOrStr_some r _ hr0
  have hclean := delete_clean db0 r
  by_cases hnil : t.nodes = []
  · have hbase := ingest_db_eq db0 t r n1 i1 hr hr0 hint hnil
    have hex2 : (insert_new_run (delete_run_cascade db0 r) t r n1).runs.any
        (fun row => row.id == r) = true := by
      simp only [insert_new_run, List.any_append, List.any_cons, List.any_nil]
      simp [build_run_row]
    have hdb2 : (ingest_trace (insert_new_run (delete_run_cascade db0 r) t r n1) t n2 i2).db =
        insert_new_run (delete_run_cascade
          (insert_new_run (delete_run_cascade db0 r) t r n1) r) t r n2 := by
      simp only [ingest_trace, hrid i2]
      rw [if_pos hex2, if_pos hnil]
    have hcollapse : delete_run_cascade
        (insert_new_run (delete_run_cascade db0 r) t r n1) r = delete_run_cascade db0 r :=
      delete_after_insert (delete_run_cascade db0 r) t r n1
        hclean.1 hclean.2.1 hclean.2.2
    rw [hbase, hdb2, hcollapse]
    unfold dbProj insert_new_run
    simp only [List.map_append, List.map_cons, List.map_nil, Prod.mk.injEq]
    refine ⟨?_, trivial⟩
    rw [build_run_proj_indep t r n2 n1]
  · have h1 := ingest_db_noded db0 t r n1 i1 hr hr0 hint hnil
    have hex : ((delete_run_cascade db0 r).runs.any (fun row => row.id == r)) = false :=
      List.any_eq_false.mpr (fun row hrow => by simp [hclean.1 row hrow])
    have h2 : (ingest_trace (delete_run_cascade db0 r) t n2 i2).db =
        delete_run_cascade db0 r := by
      simp only [ingest_trace, hrid i2]
      rw [if_neg (by simp [hex]), if_neg hnil]
    rw [h1, h2]

/-- MCP-path re-ingest: the duplicate primary key makes the second call
roll back, leaving the database exactly as after the first ingest. -/
theorem mcp_reingest_no_change (db : DB) (args : McpArgs) (r : String)
    (n1 n2 : Time) (i1 i2 : Nat) (hr : args.run_id = some r) (hr0 : r ≠ "") :
    (mcp_ingest_trace (mcp_ingest_trace db args n1 i1).1 args n2 i2).1 =
      (mcp_ingest_trace db args n1 i1).1 := by
  have hrid : ∀ i : Nat, pyOrStr args.run_id (gen_uuid i) = r := by
    intro i
    rw [hr]
    exact pyOrStr_some r _ hr0
  by_cases hex : db.runs.any (fun row => row.id == r) = true
  · have h1 : mcp_ingest_trace db args n1 i1 = (db, false) := by
      simp only [mcp_ingest_trace, hrid i1]
      rw [if_pos hex]
    rw [h1]
    simp only [mcp_ingest_trace, hrid i2]
    rw [if_pos hex]
  · have h1 : mcp_ingest_trace db args n1 i1 =
        (mcp_insert_new_run db args r n1 i1, true) := by
      simp only [mcp_ingest_trace, hrid i1]
      rw [if_neg hex]
    rw [h1]
    have hex2 : (mcp_insert_new_run db args r n1 i1).runs.any
        (fun row => row.id == r) = true := by
      simp only [mcp_insert_new_run, List.any_append, List.any_cons, List.any_nil]
      simp [mcp_build_run_row]
    simp only [mcp_ingest_trace, hrid i2]
    rw [if_pos hex2]

/-- Claim C5: ingesting a payload with a fixed run id twice leaves the
database indistinguishable (row counts, order fields, aggregates — dbProj
drops only generated uuids and wall-clock timestamps) from a single
ingest, on both entry points.  On the service path a nodeless payload is
deleted and identically re-inserted, while a payload with nodes makes both
ingests raise AttributeError before inserting anything, the second attempt
leaving the first attempt's state untouched; on the MCP path the second
ingest hits the runs primary key, rolls back and leaves the database
unchanged. -/
theorem c5_ingest_idempotent :
    (∀ (db0 : DB) (t : TraceIngest) (r : String) (n1 n2 : Time) (i1 i2 : Nat),
      t.run_id = some r → r ≠ "" → RunRefIntegrity db0 r →
      dbProj (ingest_trace (ingest_trace db0 t n1 i1).db t n2 i2).db =
        dbProj (ingest_trace db0 t n1 i1).db) ∧
    (∀ (db : DB) (args : McpArgs) (r : String) (n1 n2 : Time) (i1 i2 : Nat),
      args.run_id = some r → r ≠ "" →
      (mcp_ingest_trace (mcp_ingest_trace db args n1 i1).1 args n2 i2).1 =
        (mcp_ingest_trace db args n1 i1).1) :=
  ⟨fun db0 t r n1 n2 i1 i2 hr hr0 hi =>
      ingest_idempotent_service db0 t r n1 n2 i1 i2 hr hr0 hi,
    fun db args r n1 n2 i1 i2 hr hr0 =>
      mcp_reingest_no_change db args r n1 n2 i1 i2 hr hr0⟩

def c5w_trace : TraceIngest :=
  { run_id := some "r1"
    graph_id := some "g"
    nodes := []
    edges := [{ from_node := "a", to_node := "b" }] }

def c5w_noded : TraceIngest :=
  { run_id := some "r1"
    nodes := [{ node_key := "n1", messages := [] }] }

def c5w_args : McpArgs :=
  { run_id := some "r1"
    nodes := [{ node_key := some "n", messages := [] }] }

/-- Witness for c5_ingest_idempotent: a nodeless and a noded payload on
the service path, and an S6 payload on the MCP path, all against the empty
database. -/
theorem c5_ingest_idempotent_witness :
    dbProj (ingest_trace (ingest_trace {} c5w_trace 1 10).db c5w_trace 2 20).db =
      dbProj (ingest_trace {} c5w_trace 1 10).db ∧
    dbProj (ingest_trace (ingest_trace {} c5w_noded 1 10).db c5w_noded 2 20).db =
      dbProj (ingest_trace {} c5w_noded 1 10).db ∧
    (mcp_ingest_trace (mcp_ingest_trace {} c5w_args 1 10).1 c5w_args 2 20).1 =
      (mcp_ingest_trace {} c5w_args 1 10).1 :=
  ⟨c5_ingest_idempotent.1 {} c5w_trace "r1" 1 2 10 20 rfl (by decide)
      (fun _ => ⟨fun n h => absurd h (List.not_mem_nil n),
                 fun e h => absurd h (List.not_mem_nil e)⟩),
    c5_ingest_idempotent.1 {} c5w_noded "r1" 1 2 10 20 rfl (by decide)
      (fun _ => ⟨fun n h => absurd h (List.not_mem_nil n),
                 fun e h => absurd h (List.not_mem_nil e)⟩),
    c5_ingest_idempotent.2 {} c5w_args "r1" 1 2 10 20 rfl (by decide)⟩

def c4_db0 : DB :=
  { runs := [{ id := "r1", status := "completed", total_tokens := 3 }]
    nodes := [{ id := 0, run_id := "r1", node_key := some "n1" }]
    messages := [{ node_execution_id := 0, role := some "user", total_tokens := some 3 }]
    edges := []
    evals := [] }

def c4_trace0 : TraceIngest :=
  { run_id := some "r1" }

def c4_traceN : TraceIngest :=
  { run_id := some "r1"
    nodes := [{ node_key := "n1"
                messages := [{ role := "user", total_tokens := some 3 }] }] }

/-- Claim C4 is violated by the code: on the upsert path
repo.delete_run_cascade issues its own commit (run_repository.py line 55)
before any replacement row is inserted, so re-ingesting an existing run
commits the deletion in a transaction of its own.  For a nodeless payload
the committed run-id tables in order are [] and then r1 — an observable
intermediate state with the old Run deleted and the new one absent.  For a
payload with nodes the insert phase then raises (core/schemas.py omits the
status field that run_service.py line 94 reads), so the only committed
state is [] and the original run is permanently lost while the caller gets
an error. -/
theorem c4_reingest_not_transactional :
    c4_db0.runs.map RunRow.id = ["r1"] ∧
    (ingest_trace c4_db0 c4_trace0 7 10).commits.map (fun d => d.runs.map RunRow.id) =
      [[], ["r1"]] ∧
    (ingest_trace c4_db0 c4_traceN 7 10).commits.map (fun d => d.runs.map RunRow.id) =
      [[]] ∧
    (ingest_trace c4_db0 c4_traceN 7 10).db.runs = [] ∧
    (ingest_trace c4_db0 c4_traceN 7 10).result =
      .error (.attributeError "NodeExecutionCreate object has no attribute status") :=
  ⟨by decide, by decide, by decide, by decide, by decide⟩

def c8_db : DB :=
  { runs := [{ id := "r1" }]
    nodes := [{ id := 0, run_id := "r1", node_key := some "n1" }]
    messages := [{ node_execution_id := 0, role := some "user" }]
    edges := [{ run_id := "r1", from_node := some "a", to_node := some "b" }]
    evals := [{ id := 0, run_id := "r1", score := some 1 }] }

/-- Claim C8 is violated by the code: delete_run_cascade removes the run's
edges, messages, node executions and the run row, but never deletes (nor
even reads) the evaluations table, so an Evaluation row referencing the
deleted run survives and remains queryable; models.py configures no delete
cascade on Run.evaluations and no ON DELETE CASCADE on evaluations.run_id
either. -/
theorem c8_cascade_misses_evaluations :
    (delete_run_cascade c8_db "r1").runs = [] ∧
    (delete_run_cascade c8_db "r1").nodes = [] ∧
    (delete_run_cascade c8_db "r1").messages = [] ∧
    (delete_run_cascade c8_db "r1").edges = [] ∧
    (delete_run_cascade c8_db "r1").evals = c8_db.evals ∧
    c8_db.evals.map EvalRow.run_id = ["r1"] ∧
    (∀ (db : DB) (r : String), (delete_run_cascade db r).evals = db.evals) :=
  ⟨by decide, by decide, by decide, by decide, rfl, by decide, fun _ _ => rfl⟩

def c6_trace : TraceIngest :=
  { run_id := some "r1"
    graph_id := some "g"
    nodes := [{ node_key := "n1"
                messages := [{ role := "user", content := some "hi",
                               total_tokens := some 3, cost := some 1,
                               latency_ms := some 50 }] }] }

/-- Claim C6 is violated by the code: the aggregate computation of
run_service.ingest_trace (lines 104-150) is unreachable, because the
constructor argument node_data.status at line 94 reads a field the shipped
core/schemas.py NodeExecutionCreate does not declare, so every payload
with at least one node raises AttributeError before any NodeExecution or
Message row is built — here the S1-style payload commits nothing and
stores nothing.  In general every service ingest either carries no nodes
(and hence no messages, so I4 holds only vacuously, all aggregates zero)
or raises; no committed run with messages ever exists against which the
claimed sums could be checked. -/
theorem c6_noded_ingest_never_commits :
    (ingest_trace {} c6_trace 5 10).result =
      .error (.attributeError "NodeExecutionCreate object has no attribute status") ∧
    (ingest_trace {} c6_trace 5 10).commits = [] ∧
    (ingest_trace {} c6_trace 5 10).db = {} ∧
    (∀ (db0 : DB) (t : TraceIngest) (now : Time) (ids : Nat),
      t.nodes = [] ∨ (ingest_trace db0 t now ids).result =
        .error (.attributeError "NodeExecutionCreate object has no attribute status")) := by
  refine ⟨by decide, rfl, rfl, ?_⟩
  intro db0 t now ids
  by_cases hnil : t.nodes = []
  · exact Or.inl hnil
  · refine Or.inr ?_
    simp only [ingest_trace]
    by_cases hex : db0.runs.any
        (fun row => row.id == pyOrStr t.run_id (gen_uuid ids)) = true
    · rw [if_pos hex, if_neg hnil]
    · rw [if_neg hex, if_neg hnil]

def c7_trace : TraceIngest :=
  { run_id := some "run-A"
    graph_id := some "g1"
    nodes := [{ node_key := "step1", messages := [] }] }

/-- Claim C7 is violated by the code: on the service path no
NodeExecution status is ever persisted, because evaluating the
constructor argument node_data.status (run_service.py line 94) raises
AttributeError — core/schemas.py NodeExecutionCreate has no status field,
and pydantic discards a supplied status key — so the very trace of the
repo's own unit test stores nothing and errors out.  On the MCP path,
where nodes are persisted, the status is failed exactly when the node
carries a truthy error and completed otherwise; a supplied status is
never consulted. -/
theorem c7_node_status_unstorable :
    (ingest_trace {} c7_trace 0 0).result =
      .error (.attributeError "NodeExecutionCreate object has no attribute status") ∧
    (ingest_trace {} c7_trace 0 0).db.nodes = [] ∧
    (ingest_trace {} c7_trace 0 0).commits = [] ∧
    (∀ (run_id : String) (now : Time) (nid idx : Nat) (nd : McpNode),
      (mcp_build_node_row run_id now nid idx nd).status =
        (if truthyStr nd.error then "failed" else "completed")) :=
  ⟨rfl, rfl, rfl, fun _ _ _ _ _ => rfl⟩

/-- An entry of the live server's route list (starlette).  route is an
HTTP Route (fastapi APIRoute included), mount a starlette Mount; other
covers the route classes _remove_routes_by_prefix ignores (e.g. websocket
routes). -/
inductive RouteEntry where
  | route (path : String)
  | mount (path : String)
  | other
deriving DecidableEq

/-- ExtensionManager._remove_routes_by_prefix (src/extensions/manager.py,
lines 153-165): collect the Mount entries whose path equals or starts with
the prefix and the Route entries whose path starts with it, then remove
them; other entries stay.  Collect-then-remove over identity equality is
a filter. -/
def remove_routes_under (routes : List RouteEntry) (pre : String) : List RouteEntry :=
  routes.filter (fun rt =>
    match rt with
    | .route p => !(p.startsWith pre)
    | .mount p => !(p == pre || p.startsWith pre)
    | .other => true)

/-- The name and version the manager keeps per loaded extension. -/
structure ExtInfo where
  name : String
  version : String
deriving DecidableEq

/-- The ExtensionManager state the unload path touches.  In FastAPI
app.routes is app.router.routes, so the two removal calls of
unload_backend act on the one list modelled here.  The sys.modules
eviction concerns the Python module cache, not the route table. -/
structure ManagerState where
  routes : List RouteEntry := []
  loaded_extensions : List (String × ExtInfo) := []
  extension_routers : List String := []
  cleanup_handlers : List String := []
deriving DecidableEq

/-- ExtensionManager.unload_backend (src/extensions/manager.py, lines
167-203).  Cleanup callables are invoked best-effort and their exceptions
swallowed; only their registry entry matters here. -/
def unload_backend (st : ManagerState) (extension_id : String) :
    Bool × String × ManagerState :=
  match st.loaded_extensions.lookup extension_id with
  | none => (true, "Extension not loaded", st)
  | some info =>
    let st1 : ManagerState :=
      { st with cleanup_handlers := st.cleanup_handlers.filter (fun i => i != extension_id) }
    let st2 : ManagerState :=
      if st1.extension_routers.contains extension_id then
        { st1 with
          routes := remove_routes_under st1.routes ("/api/extensions/" ++ info.name)
          extension_routers := st1.extension_routers.filter (fun i => i != extension_id) }
      else st1
    (true, "Backend unloaded successfully",
      { st2 with loaded_extensions := st2.loaded_extensions.filter (fun kv => kv.1 != extension_id) })

/-- Whether a route entry is an HTTP route whose path begins with pre. -/
def is_http_route_under (rt : RouteEntry) (pre : String) : Bool :=
  match rt with
  | .route p => p.startsWith pre
  | .mount p => p.startsWith pre
  | .other => false

/-- Routing model of the starlette dispatcher: an HTTP Route handles
exactly its own path, a Mount handles every path extending its mount path,
non-HTTP entries never handle an HTTP request; an unhandled request is
answered 404. -/
def route_handles (rt : RouteEntry) (path : String) : Bool :=
  match rt with
  | .route p => p == path
  | .mount p => path.startsWith p
  | .other => false

def dispatch_status (routes : List RouteEntry) (path : String) : Nat :=
  if routes.any (fun rt => route_handles rt path) then 200 else 404

/-- Claim C9: after unload_backend succeeds for a loaded extension, the
route list contains no HTTP route under the extension's mount prefix, and
every request to a path under the prefix is answered 404 provided no
foreign Mount from outside the prefix also covers that path (in the
application, extension routes are the only ones under
/api/extensions/name). -/
theorem c9_unmount_completeness (st : ManagerState) (extension_id : String)
    (info : ExtInfo)
    (hin : st.loaded_extensions.lookup extension_id = some info)
    (hrt : st.extension_routers.contains extension_id = true) :
    (unload_backend st extension_id).1 = true ∧
    (∀ rt ∈ (unload_backend st extension_id).2.2.routes,
      is_http_route_under rt ("/api/extensions/" ++ info.name) = false) ∧
    (∀ path : String, path.startsWith ("/api/extensions/" ++ info.name) = true →
      (∀ rt ∈ st.routes, ∀ p : String, rt = RouteEntry.mount p →
        p.startsWith ("/api/extensions/" ++ info.name) = true ∨
          path.startsWith p = false) →
      dispatch_status (unload_backend st extension_id).2.2.routes path = 404) := by
  have hres : (unload_backend st extension_id).2.2.routes =
      remove_routes_under st.routes ("/api/extensions/" ++ info.name) := by
    simp only [unload_backend, hin]
    rw [if_pos hrt]
  refine ⟨?_, ?_, ?_⟩
  · simp only [unload_backend, hin]
  · intro rt hrt2
    rw [hres] at hrt2
    have hpred := List.of_mem_filter hrt2
    cases rt with
    | route p =>
      simpa [is_http_route_under] using hpred
    | mount p =>
      simp only [Bool.not_eq_true', Bool.or_eq_false_iff] at hpred
      simpa [is_http_route_under] using hpred.2
    | other => rfl
  · intro path hpath hmounts
    rw [hres]
    unfold dispatch_status
    rw [if_neg ?_]
    intro hany
    obtain ⟨rt, hmem, hh⟩ := List.any_eq_true.mp hany
    have hpred := List.of_mem_filter hmem
    have horig : rt ∈ st.routes := List.mem_of_mem_filter hmem
    cases rt with
    | route p =>
      simp only [route_handles, beq_iff_eq] at hh
      subst hh
      simp only [Bool.not_eq_true'] at hpred
      rw [hpath] at hpred
      exact absurd hpred (by simp)
    | mount p =>
      simp only [route_handles] at hh
      simp only [Bool.not_eq_true', Bool.or_eq_false_iff] at hpred
      rcases hmounts (RouteEntry.mount p) horig p rfl with hcase | hcase
      · rw [hcase] at hpred
        exact absurd hpred.2 (by simp)
      · rw [hcase] at hh
        exact absurd hh (by simp)
    | other =>
      simp [route_handles] at hh

def c9w_state : ManagerState :=
  { routes := [RouteEntry.route "/api/runs", RouteEntry.route "/api/extensions/x/ping",
               RouteEntry.mount "/api/extensions/x/frontend", RouteEntry.other]
    loaded_extensions := [("id1", ⟨"x", "1.0"⟩)]
    extension_routers := ["id1"]
    cleanup_handlers := ["id1"] }

/-- Witness for c9_unmount_completeness: scenario S5, disabling extension x
with a ping route and a frontend mount. -/
theorem c9_unmount_completeness_witness :
    (unload_backend c9w_state "id1").1 = true ∧
    (∀ rt ∈ (unload_backend c9w_state "id1").2.2.routes,
      is_http_route_under rt ("/api/extensions/" ++ "x") = false) ∧
    (∀ path : String, path.startsWith ("/api/extensions/" ++ "x") = true →
      (∀ rt ∈ c9w_state.routes, ∀ p : String, rt = RouteEntry.mount p →
        p.startsWith ("/api/extensions/" ++ "x") = true ∨
          path.startsWith p = false) →
      dispatch_status (unload_backend c9w_state "id1").2.2.routes path = 404) :=
  c9_unmount_completeness c9w_state "id1" ⟨"x", "1.0"⟩ (by decide) (by decide)

/-- One row of the extension_data table (the columns storage list reads). -/
structure DataRow where
  extension_id : String
  key : String
  value : Option String := none
deriving DecidableEq

/-- ExtensionStorage.list (src/extensions/storage.py, lines 150-170): the
rows of the extension, optionally filtered by key prefix when the prefix
argument is truthy (Python: None and "" skip the filter), ordered by key.
The SQL ORDER BY on a string column is modelled by insertion sort under
the lexicographic order on strings. -/
def storage_list (rows : List DataRow) (extension_id : String)
    (pre : Option String) : List String :=
  let q := rows.filter (fun r => r.extension_id == extension_id)
  let q2 := if truthyStr pre then
      q.filter (fun (r : DataRow) => r.key.startsWith (pre.getD ""))
    else q
  List.insertionSort (· ≤ ·) (q2.map DataRow.key)

/-- Claim C10: storage list returns exactly the keys stored for the
extension that start with the prefix (all of its keys when no truthy
prefix is given), in ascending lexicographic order. -/
theorem c10_storage_list (rows : List DataRow) (extension_id : String)
    (pre : Option String) :
    List.Sorted (· ≤ ·) (storage_list rows extension_id pre) ∧
    (∀ k : String, k ∈ storage_list rows extension_id pre ↔
      ∃ row ∈ rows, row.extension_id = extension_id ∧ row.key = k ∧
        ∀ p : String, pre = some p → p ≠ "" → k.startsWith p = true) := by
  constructor
  · exact List.sorted_insertionSort _ _
  · intro k
    unfold storage_list
    rw [List.Perm.mem_iff (List.perm_insertionSort _ _)]
    cases pre with
    | none =>
      rw [if_neg (by simp [truthyStr])]
      simp only [List.mem_map, List.mem_filter]
      constructor
      · rintro ⟨row, ⟨hrow, hext⟩, rfl⟩
        exact ⟨row, hrow, by simpa using hext, rfl, fun p hp => by cases hp⟩
      · rintro ⟨row, hrow, hext, rfl, _⟩
        exact ⟨row, ⟨hrow, by simp [hext]⟩, rfl⟩
    | some p =>
      by_cases hp : p = ""
      · subst hp
        rw [if_neg (by simp [truthyStr])]
        simp only [List.mem_map, List.mem_filter]
        constructor
        · rintro ⟨row, ⟨hrow, hext⟩, rfl⟩
          refine ⟨row, hrow, by simpa using hext, rfl, ?_⟩
          intro q hq hqne
          cases hq
          exact absurd rfl hqne
        · rintro ⟨row, hrow, hext, rfl, _⟩
          exact ⟨row, ⟨hrow, by simp [hext]⟩, rfl⟩
      · rw [if_pos (by simp [truthyStr, hp])]
        simp only [List.mem_map, List.mem_filter, Option.getD_some]
        constructor
        · rintro ⟨row, ⟨⟨hrow, hext⟩, hkey⟩, rfl⟩
          refine ⟨row, hrow, by simpa using hext, rfl, ?_⟩
          intro q hq _
          cases hq
          exact hkey
        · rintro ⟨row, hrow, hext, rfl, hsel⟩
          exact ⟨row, ⟨⟨hrow, by simp [hext]⟩, hsel p rfl hp⟩, rfl⟩
